import Mathlib

/-!
Verification development for the treasury credit-ledger service
(source: src/main.py).

Modelling conventions:
- Python strings are modelled as lists of ASCII code points (PyStr := List Nat).
  Python's str.lower / str.upper coincide with the ASCII maps below on the
  address strings in scope.
- Python float amounts are modelled as exact rationals; the fixed reserve
  0.002 is the rational 1/500.
- The in-memory dict user_credits is modelled as an insertion-ordered
  association list, matching Python dict semantics (lookup finds the unique
  key, insertion appends, update keeps position, iteration is insertion
  order).
- web3.to_checksum_address is the EIP-55 algorithm; its keccak-256 core is an
  external library primitive, kept as an explicit function parameter
  (keccak : PyStr → List Nat) returning the hex-digest nibbles. Everything
  proved about normalization holds for every such parameter.
- HTTP error detail strings that the source builds with f-string numeric
  interpolation are abstracted to fixed labels; no claim depends on the
  rendered numbers.
- FastAPI handlers in the source are async def functions containing no await
  point (all web3 calls are synchronous), so on the single-process event loop
  started by uvicorn.run each handler runs to completion atomically; the
  system's behaviours are exactly the sequential interleavings modelled by
  runOps below.
-/

namespace Treasury

/-- A Python string as its list of ASCII code points. -/
abbrev PyStr := List Nat

/-- ASCII model of Python str.lower on one code point. -/
def pyLower (b : Nat) : Nat := if 65 ≤ b ∧ b ≤ 90 then b + 32 else b

/-- ASCII model of Python str.upper on one code point. -/
def pyUpper (b : Nat) : Nat := if 97 ≤ b ∧ b ≤ 122 then b - 32 else b

/-- Whitespace test backing Python str.strip (ASCII part). -/
def isPySpace (b : Nat) : Bool :=
  b = 32 || b = 9 || b = 10 || b = 13 || b = 11 || b = 12

/-- Python str.strip: drop whitespace from both ends. -/
def pyStrip (s : PyStr) : PyStr :=
  ((s.dropWhile isPySpace).reverse.dropWhile isPySpace).reverse

/-- The sentinel string "not_connected" used by the receive endpoint. -/
def notConnected : PyStr := ("not_connected".data.map Char.toNat)

/-- The in-memory ledger user_credits: an insertion-ordered association list
from identity string to credit balance, mirroring a Python dict. -/
abbrev Ledger := List (PyStr × ℚ)

/-- Python user_credits.get(k, 0): balance of the first (unique) entry with
key k, or 0 when absent. -/
def ledgerGet : Ledger → PyStr → ℚ
  | [], _ => 0
  | (k, v) :: rest, a => if k = a then v else ledgerGet rest a

/-- Python user_credits[k] = v: update the entry in place, or append. -/
def ledgerSet : Ledger → PyStr → ℚ → Ledger
  | [], a, v => [(a, v)]
  | (k, w) :: rest, a, v =>
      if k = a then (a, v) :: rest else (k, w) :: ledgerSet rest a v

/-- Python k in user_credits. -/
def ledgerHas : Ledger → PyStr → Bool
  | [], _ => false
  | (k, _) :: rest, a => k = a || ledgerHas rest a

/-- A hex digit in ASCII (0-9, a-f, A-F). -/
def isHexByte (b : Nat) : Bool :=
  (48 ≤ b && b ≤ 57) || (97 ≤ b && b ≤ 102) || (65 ≤ b && b ≤ 70)

/-- Test for the leading 0x (48 is the code of the digit zero and 120 the
code of letter x); backs both the hex-address shape test and the
addr.startswith check in get_user_credits. -/
def startsWith0x : PyStr → Bool
  | a :: b :: _ => a == 48 && b == 120
  | _ => false

/-- Hex-address shape test of eth_utils: literal 0x followed by 40 hex
digits. -/
def isHexAddress (s : PyStr) : Bool :=
  startsWith0x s && s.length == 42 && (s.drop 2).all isHexByte

/-- EIP-55 case application: uppercase the address character exactly when the
corresponding hash nibble is at least 8 (Python zip truncates to the shorter
list; with a real keccak digest the hash side has 64 nibbles and the address
side 40, so nothing is lost). -/
def applyCase : List Nat → List Nat → List Nat
  | c :: cs, n :: ns => (if 8 ≤ n then pyUpper c else c) :: applyCase cs ns
  | _, _ => []

/-- Checksum core on the 40-character tail: lowercase it, hash the lowercase
form, re-case by the hash nibbles. -/
def checksumCore (keccak : PyStr → List Nat) (t : PyStr) : PyStr :=
  applyCase (t.map pyLower) (keccak (t.map pyLower))

/-- web3.to_checksum_address: EIP-55 canonical mixed-case form, keyed only on
the lowercased hex tail of the input. -/
def toChecksumAddress (keccak : PyStr → List Nat) (s : PyStr) : PyStr :=
  48 :: 120 :: checksumCore keccak (s.drop 2)

/-- Address tail contains both a lowercase and an uppercase letter. -/
def hasMixedCase (t : PyStr) : Bool :=
  t.any (fun b => 97 ≤ b && b ≤ 122) && t.any (fun b => 65 ≤ b && b ≤ 90)

/-- web3.is_address: hex-address shape, and when the letters are mixed-case
the casing must be the valid EIP-55 checksum casing. -/
def isAddress (keccak : PyStr → List Nat) (s : PyStr) : Bool :=
  isHexAddress s && (!hasMixedCase (s.drop 2) || s == toChecksumAddress keccak s)

/-- Result of an endpoint call: either the JSON payload or the
HTTPException (status code, detail) the handler raises. -/
inductive HResp (α : Type) where
  | ok (payload : α)
  | httpError (code : Nat) (detail : String)
deriving DecidableEq

/-- True exactly on the ok constructor. -/
def isOkB {α : Type} : HResp α → Bool
  | .ok _ => true
  | .httpError _ _ => false

/-- HTTP status code surfaced to the caller (FastAPI returns 200 on a plain
return). -/
def respCode {α : Type} : HResp α → Nat
  | .ok _ => 200
  | .httpError c _ => c

/-- Fixed USD display price constant ETH_PRICE from the source. -/
def ETH_PRICE : ℚ := 3450

/-- Body of POST /api/treasury/receive (amountUSD and source fields are
display-only defaults, never read by the ledger logic, and are omitted). -/
structure ReceiveReq where
  amountETH : ℚ
  userWallet : PyStr
deriving DecidableEq

/-- Ledger-relevant part of the receive endpoint's success payload (the
treasury-balance snapshot fields only echo a chain query and are omitted). -/
structure ReceiveResp where
  amountEth : ℚ
  amountUsd : ℚ
  userTotalCredits : Option ℚ
deriving DecidableEq

/-- POST /api/treasury/receive. Rejects non-positive amounts, then credits
the raw (un-normalized) userWallet key unless it is empty (falsy) or the
sentinel, and reports the stored total. -/
def receiveEarnings (led : Ledger) (req : ReceiveReq) :
    HResp ReceiveResp × Ledger :=
  if req.amountETH ≤ 0 then (.httpError 400 "Amount must be positive", led)
  else
    let led' :=
      if req.userWallet ≠ [] ∧ req.userWallet ≠ notConnected then
        ledgerSet led req.userWallet (ledgerGet led req.userWallet + req.amountETH)
      else led
    (.ok { amountEth := req.amountETH
           amountUsd := req.amountETH * ETH_PRICE
           userTotalCredits :=
             if req.userWallet ≠ notConnected then
               some (ledgerGet led' req.userWallet)
             else none },
     led')

/-- Body of POST /api/claim/earnings. -/
structure ClaimReq where
  userWallet : PyStr
  amountETH : ℚ
deriving DecidableEq

/-- What the chain reports for the broadcast transaction: a mined receipt, a
receipt-polling timeout of web3.eth.wait_for_transaction_receipt, or an
exception from signing or broadcasting. -/
inductive ChainOutcome where
  | receipt (status : Nat) (gasUsed : ℚ) (effectiveGasPrice : Option ℚ) (blockNumber : Nat)
  | timeout
  | sendError (msg : String)
deriving DecidableEq

/-- Values returned by the Chain Gateway queries during one settlement
attempt: treasury balance (in ether), gas price (in wei), transaction count,
the hash of the broadcast transaction, and the attempt's outcome. -/
structure ChainEnv where
  treasuryBalance : ℚ
  gasPrice : ℚ
  txCount : Nat
  txHash : String
  outcome : ChainOutcome
deriving DecidableEq

/-- The fixed liquidity reserve 0.002 ether of the source. -/
def RESERVE : ℚ := 1 / 500

/-- Fixed gas limit for a plain value transfer. -/
def GAS_LIMIT : Nat := 21000

/-- Fixed target chain id. -/
def CHAIN_ID : Nat := 1

/-- The transfer transaction built by claim_earnings: value in wei, gas price
with the 10 percent markup truncated to an integer as Python int() does. -/
structure Tx where
  toAddr : PyStr
  value : ℚ
  gas : Nat
  gasPrice : ℤ
  nonce : Nat
  chainId : Nat
deriving DecidableEq

/-- Transaction construction step of claim_earnings and transfer_eth. -/
def buildTx (env : ChainEnv) (userAddr : PyStr) (amount : ℚ) : Tx :=
  { toAddr := userAddr
    value := amount * 10 ^ 18
    gas := GAS_LIMIT
    gasPrice := (env.gasPrice * 11 / 10).floor
    nonce := env.txCount
    chainId := CHAIN_ID }

/-- Success payload of POST /api/claim/earnings. -/
structure ClaimResp where
  txHash : String
  blockNumber : Nat
  gasUsedEth : ℚ
  amountSent : ℚ
  recipient : PyStr
  remaining : ℚ
deriving DecidableEq

/-- True exactly when the outcome is a receipt whose status field is 1. -/
def isSuccessReceipt : ChainOutcome → Bool
  | .receipt status _ _ _ => status == 1
  | _ => false

/-- POST /api/claim/earnings, the gated settlement path. ready models the
web3_ready and treasury globals being set. Steps in source order: readiness
guard, address validation and checksum normalization, advisory credit check,
live treasury liquidity check, transaction build/sign/broadcast, receipt
wait, and the ledger debit on a success receipt. The debit line
user_credits[user_addr] -= req.amountETH raises KeyError when the key is
absent, which the catch-all handler turns into a 500; that branch is modelled
explicitly. -/
def claimEarnings (keccak : PyStr → List Nat) (ready : Bool) (env : ChainEnv)
    (led : Ledger) (req : ClaimReq) : HResp ClaimResp × Ledger :=
  if ready = false then (.httpError 503 "Treasury not initialized", led)
  else if isAddress keccak req.userWallet = false then
    (.httpError 400 "Invalid address", led)
  else
    let user_addr := toChecksumAddress keccak req.userWallet
    let credits := ledgerGet led user_addr
    if credits < req.amountETH then
      (.httpError 400 "Insufficient: need amount, have credits", led)
    else if env.treasuryBalance < req.amountETH + RESERVE then
      (.httpError 400 "Treasury low", led)
    else
      let _tx := buildTx env user_addr req.amountETH
      match env.outcome with
      | .sendError m => (.httpError 500 m, led)
      | .timeout => (.httpError 500 "Transaction receipt wait timed out", led)
      | .receipt status gasUsed egp blockNumber =>
        if status = 1 then
          if ledgerHas led user_addr then
            let led' := ledgerSet led user_addr (ledgerGet led user_addr - req.amountETH)
            (.ok { txHash := env.txHash
                   blockNumber := blockNumber
                   gasUsedEth := gasUsed * (egp.getD env.gasPrice) / 10 ^ 18
                   amountSent := req.amountETH
                   recipient := user_addr
                   remaining := ledgerGet led' user_addr },
             led')
          else (.httpError 500 "KeyError", led)
        else (.httpError 500 "TX reverted", led)

/-- Success payload of GET /api/user/credits. -/
structure CreditsResp where
  wallet : PyStr
  creditsEth : ℚ
  creditsUsd : ℚ
  canClaim : Bool
deriving DecidableEq

/-- The linear scan in get_user_credits: the balance of the first ledger
entry whose lowercased key equals the lowercased query, in dict iteration
order, else 0. -/
def scanCredits : Ledger → PyStr → ℚ
  | [], _ => 0
  | (k, v) :: rest, al => if k.map pyLower = al then v else scanCredits rest al

/-- GET /api/user/credits. Strips the path argument, checks only the leading
0x and total length 42 (no hex or checksum validation), then scans the
ledger case-insensitively. -/
def getUserCredits (led : Ledger) (walletAddress : PyStr) : HResp CreditsResp :=
  let addr := pyStrip walletAddress
  if (startsWith0x addr && addr.length == 42) = false then
    .httpError 400 "Invalid address format"
  else
    let addrLower := addr.map pyLower
    let credits := scanCredits led addrLower
    .ok { wallet := addr
          creditsEth := credits
          creditsUsd := credits * ETH_PRICE
          canClaim := decide (0 < credits) }

/-- One inbound API call that can touch the ledger: a credit via
POST /api/treasury/receive or a settlement attempt via
POST /api/claim/earnings (with the chain's behaviour for that attempt). -/
inductive ApiOp where
  | receive (req : ReceiveReq)
  | claim (ready : Bool) (env : ChainEnv) (req : ClaimReq)

/-- Ledger effect of one API call. Each handler of the source is an async
def with no await point, so it runs atomically on the event loop and the
ledger steps exactly by these transitions. -/
def applyOp (keccak : PyStr → List Nat) (led : Ledger) : ApiOp → Ledger
  | .receive req => (receiveEarnings led req).2
  | .claim ready env req => (claimEarnings keccak ready env led req).2

/-- Ledger reached after a sequence of API calls. -/
def runOps (keccak : PyStr → List Nat) (led : Ledger) : List ApiOp → Ledger
  | [] => led
  | op :: ops => runOps keccak (applyOp keccak led op) ops

/-- All conditions under which one claim_earnings call debits the ledger:
service ready, valid address, advisory credit check passed, liquidity check
passed, success receipt, and the checksummed key present in the dict. -/
def claimDebits (keccak : PyStr → List Nat) (ready : Bool) (env : ChainEnv)
    (led : Ledger) (req : ClaimReq) : Bool :=
  ready
  && isAddress keccak req.userWallet
  && decide (req.amountETH ≤ ledgerGet led (toChecksumAddress keccak req.userWallet))
  && decide (req.amountETH + RESERVE ≤ env.treasuryBalance)
  && isSuccessReceipt env.outcome
  && ledgerHas led (toChecksumAddress keccak req.userWallet)

/-- Amount an API call credits to ledger key k (zero when the call is not a
receive, is rejected, or targets another key). -/
def creditPart (k : PyStr) : ApiOp → ℚ
  | .receive req =>
      if 0 < req.amountETH ∧ req.userWallet ≠ [] ∧ req.userWallet ≠ notConnected
          ∧ req.userWallet = k
      then req.amountETH else 0
  | .claim _ _ _ => 0

/-- Amount an API call debits from ledger key k at ledger state led (zero
when the call is not a claim, does not reach the debit, or targets another
key). -/
def debitPart (keccak : PyStr → List Nat) (led : Ledger) (k : PyStr) : ApiOp → ℚ
  | .receive _ => 0
  | .claim ready env req =>
      if claimDebits keccak ready env led req = true
          ∧ toChecksumAddress keccak req.userWallet = k
      then req.amountETH else 0

/-- Total credited to key k along a trace, accumulated against the ledger
states the trace actually reaches. -/
def creditTotal (keccak : PyStr → List Nat) (led : Ledger) (k : PyStr) :
    List ApiOp → ℚ
  | [] => 0
  | op :: ops => creditPart k op + creditTotal keccak (applyOp keccak led op) k ops

/-- Total debited from key k along a trace. -/
def debitTotal (keccak : PyStr → List Nat) (led : Ledger) (k : PyStr) :
    List ApiOp → ℚ
  | [] => 0
  | op :: ops => debitPart keccak led k op + debitTotal keccak (applyOp keccak led op) k ops

/-! Concrete instances used by the closed theorems: a degenerate keccak
parameter (all nibbles zero, so the checksum of a lowercase address is
itself), two casings of one address, and small chain environments. -/

/-- Degenerate hash parameter: 64 zero nibbles for every input. -/
def keccak0 : PyStr → List Nat := fun _ => List.replicate 64 0

/-- The address 0x followed by forty letters a, all lowercase. -/
def wLow : PyStr := 48 :: 120 :: List.replicate 40 97

/-- The same address with its forty letters uppercase. -/
def wUp : PyStr := 48 :: 120 :: List.replicate 40 65

/-- Chain environment whose attempt ends in a success receipt. -/
def envOk : ChainEnv :=
  { treasuryBalance := 1
    gasPrice := 0
    txCount := 0
    txHash := "0xdeadbeef"
    outcome := .receipt 1 0 (some 0) 5 }

/-- Chain environment whose attempt times out waiting for the receipt. -/
def envTimeout : ChainEnv :=
  { treasuryBalance := 1
    gasPrice := 0
    txCount := 0
    txHash := "0xdeadbeef"
    outcome := .timeout }

/-- Chain environment whose attempt ends in a reverted receipt. -/
def envReverted : ChainEnv :=
  { treasuryBalance := 1
    gasPrice := 0
    txCount := 0
    txHash := "0xdeadbeef"
    outcome := .receipt 0 0 (some 0) 5 }

/-! Helper lemmas about the ledger map, mirroring Python dict semantics. -/

lemma ledgerGet_ledgerSet (led : Ledger) (a k : PyStr) (v : ℚ) :
    ledgerGet (ledgerSet led a v) k = if a = k then v else ledgerGet led k := by
  induction led with
  | nil => simp only [ledgerSet, ledgerGet]
  | cons p rest ih =>
      obtain ⟨k', v'⟩ := p
      by_cases h1 : k' = a
      · subst h1
        by_cases h2 : k' = k <;> simp [ledgerSet, ledgerGet, h2]
      · by_cases h2 : k' = k
        · subst h2
          have ha : a ≠ k' := fun h => h1 h.symm
          simp [ledgerSet, ledgerGet, h1, ha]
        · simp [ledgerSet, ledgerGet, h1, h2, ih]

lemma ledgerHas_of_get_ne (led : Ledger) (k : PyStr) (h : ledgerGet led k ≠ 0) :
    ledgerHas led k = true := by
  induction led with
  | nil => simp [ledgerGet] at h
  | cons p rest ih =>
      obtain ⟨k', v'⟩ := p
      by_cases h1 : k' = k
      · simp [ledgerHas, h1]
      · simp only [ledgerGet, if_neg h1] at h
        simp [ledgerHas, h1, ih h]

/-! Helper lemmas characterizing one claim_earnings call: its ledger effect
and its success condition, both governed by claimDebits. -/

lemma claim_snd_eq (keccak : PyStr → List Nat) (ready : Bool) (env : ChainEnv)
    (led : Ledger) (req : ClaimReq) :
    (claimEarnings keccak ready env led req).2 =
      if claimDebits keccak ready env led req = true
      then ledgerSet led (toChecksumAddress keccak req.userWallet)
             (ledgerGet led (toChecksumAddress keccak req.userWallet) - req.amountETH)
      else led := by
  unfold claimEarnings claimDebits
  by_cases h1 : ready = false
  · simp [h1]
  · by_cases h2 : isAddress keccak req.userWallet = false
    · simp [h1, h2]
    · by_cases h3 : ledgerGet led (toChecksumAddress keccak req.userWallet) < req.amountETH
      · simp [h1, h2, h3, not_le.mpr h3]
      · by_cases h4 : env.treasuryBalance < req.amountETH + RESERVE
        · simp [h1, h2, h3, h4, not_le.mpr h4]
        · cases hoc : env.outcome with
          | sendError m =>
              simp [h1, h2, h3, h4, hoc, isSuccessReceipt]
          | timeout =>
              simp [h1, h2, h3, h4, hoc, isSuccessReceipt]
          | receipt status gasUsed egp blockNumber =>
              by_cases h5 : status = 1
              · by_cases h6 : ledgerHas led (toChecksumAddress keccak req.userWallet) = true
                · simp [h1, h2, h3, h4, hoc, h5, h6, isSuccessReceipt,
                        not_lt.mp h3, not_lt.mp h4]
                · simp [h1, h2, h3, h4, hoc, h5, h6, isSuccessReceipt]
              · simp [h1, h2, h3, h4, hoc, h5, isSuccessReceipt]

lemma claim_ok_iff (keccak : PyStr → List Nat) (ready : Bool) (env : ChainEnv)
    (led : Ledger) (req : ClaimReq) :
    isOkB (claimEarnings keccak ready env led req).1 = true ↔
      claimDebits keccak ready env led req = true := by
  unfold claimEarnings claimDebits
  by_cases h1 : ready = false
  · simp [h1, isOkB]
  · by_cases h2 : isAddress keccak req.userWallet = false
    · simp [h1, h2, isOkB]
    · by_cases h3 : ledgerGet led (toChecksumAddress keccak req.userWallet) < req.amountETH
      · simp [h1, h2, h3, not_le.mpr h3, isOkB]
      · by_cases h4 : env.treasuryBalance < req.amountETH + RESERVE
        · simp [h1, h2, h3, h4, not_le.mpr h4, isOkB]
        · cases hoc : env.outcome with
          | sendError m =>
              simp [h1, h2, h3, h4, hoc, isSuccessReceipt, isOkB]
          | timeout =>
              simp [h1, h2, h3, h4, hoc, isSuccessReceipt, isOkB]
          | receipt status gasUsed egp blockNumber =>
              by_cases h5 : status = 1
              · by_cases h6 : ledgerHas led (toChecksumAddress keccak req.userWallet) = true
                · simp [h1, h2, h3, h4, hoc, h5, h6, isSuccessReceipt, isOkB,
                        not_lt.mp h3, not_lt.mp h4]
                · simp [h1, h2, h3, h4, hoc, h5, h6, isSuccessReceipt, isOkB]
              · simp [h1, h2, h3, h4, hoc, h5, isSuccessReceipt, isOkB]

lemma claimDebits_amount_le (keccak : PyStr → List Nat) (ready : Bool)
    (env : ChainEnv) (led : Ledger) (req : ClaimReq)
    (h : claimDebits keccak ready env led req = true) :
    req.amountETH ≤ ledgerGet led (toChecksumAddress keccak req.userWallet) := by
  unfold claimDebits at h
  simp only [Bool.and_eq_true, decide_eq_true_eq] at h
  exact h.1.1.1.2

/-! Per-operation ledger accounting lemmas. -/

lemma receive_snd_get (led : Ledger) (req : ReceiveReq) (k : PyStr) :
    ledgerGet (receiveEarnings led req).2 k
      = ledgerGet led k + creditPart k (ApiOp.receive req) := by
  unfold receiveEarnings creditPart
  by_cases h1 : req.amountETH ≤ 0
  · simp [h1, not_lt.mpr h1]
  · have hpos : (0:ℚ) < req.amountETH := lt_of_not_le h1
    by_cases hw1 : req.userWallet = []
    · simp [h1, hw1]
    · by_cases hw2 : req.userWallet = notConnected
      · simp [h1, hw1, hw2]
      · by_cases h3 : req.userWallet = k
        · subst h3
          simp [h1, hw1, hw2, hpos, ledgerGet_ledgerSet]
        · simp [h1, hw1, hw2, h3, hpos, ledgerGet_ledgerSet]

lemma claim_snd_get (keccak : PyStr → List Nat) (ready : Bool) (env : ChainEnv)
    (led : Ledger) (req : ClaimReq) (k : PyStr) :
    ledgerGet (claimEarnings keccak ready env led req).2 k
      = ledgerGet led k - debitPart keccak led k (ApiOp.claim ready env req) := by
  rw [claim_snd_eq]
  unfold debitPart
  by_cases hd : claimDebits keccak ready env led req = true
  · by_cases hk : toChecksumAddress keccak req.userWallet = k
    · simp [hd, hk, ledgerGet_ledgerSet]
    · simp [hd, hk, ledgerGet_ledgerSet]
  · simp [hd]

lemma applyOp_get (keccak : PyStr → List Nat) (led : Ledger) (k : PyStr)
    (op : ApiOp) :
    ledgerGet (applyOp keccak led op) k
      = ledgerGet led k + creditPart k op - debitPart keccak led k op := by
  cases op with
  | receive req => simp [applyOp, receive_snd_get, debitPart]
  | claim ready env req => simp [applyOp, claim_snd_get, creditPart]

lemma creditPart_nonneg (k : PyStr) (op : ApiOp) : 0 ≤ creditPart k op := by
  cases op with
  | receive req =>
      simp only [creditPart]
      split_ifs with h
      · exact le_of_lt h.1
      · exact le_refl 0
  | claim ready env req => simp [creditPart]

lemma applyOp_nonneg (keccak : PyStr → List Nat) (led : Ledger) (op : ApiOp)
    (h : ∀ k, 0 ≤ ledgerGet led k) : ∀ k, 0 ≤ ledgerGet (applyOp keccak led op) k := by
  intro k
  rw [applyOp_get]
  cases op with
  | receive req =>
      have := creditPart_nonneg k (ApiOp.receive req)
      simp only [debitPart]
      have hk := h k
      linarith
  | claim ready env req =>
      simp only [creditPart, debitPart]
      split_ifs with hd
      · have hle := claimDebits_amount_le keccak ready env led req hd.1
        rw [hd.2] at hle
        linarith
      · have hk := h k
        linarith

/-! Helper lemmas for the EIP-55 checksum algorithm. -/

lemma pyLower_pyLower (b : Nat) : pyLower (pyLower b) = pyLower b := by
  unfold pyLower
  split_ifs <;> omega

lemma pyLower_pyUpper (b : Nat) : pyLower (pyUpper b) = pyLower b := by
  unfold pyLower pyUpper
  split_ifs <;> omega

lemma applyCase_map_pyLower (l h : List Nat) (hl : l.length ≤ h.length) :
    (applyCase l h).map pyLower = l.map pyLower := by
  induction l generalizing h with
  | nil => simp [applyCase]
  | cons c cs ih =>
      cases h with
      | nil => simp at hl
      | cons n ns =>
          simp only [applyCase, List.map]
          congr 1
          · by_cases h8 : 8 ≤ n
            · simp [h8, pyLower_pyUpper]
            · simp [h8]
          · exact ih ns (by simpa using hl)

lemma map_pyLower_idem (l : List Nat) :
    (l.map pyLower).map pyLower = l.map pyLower := by
  simp [List.map_map, Function.comp_def, pyLower_pyLower]

lemma isHexAddress_shape (s : PyStr) (h : isHexAddress s = true) :
    ∃ t : PyStr, s = 48 :: 120 :: t ∧ t.length = 40 := by
  match s with
  | [] => simp [isHexAddress, startsWith0x] at h
  | [a] => simp [isHexAddress, startsWith0x] at h
  | a :: b :: t =>
      simp only [isHexAddress, startsWith0x, Bool.and_eq_true, beq_iff_eq] at h
      obtain ⟨⟨⟨ha, hb⟩, hlen⟩, _⟩ := h
      refine ⟨t, by simp [ha, hb], ?_⟩
      simpa using hlen

lemma runOps_get (keccak : PyStr → List Nat) (ops : List ApiOp) :
    ∀ (led : Ledger) (k : PyStr),
      ledgerGet (runOps keccak led ops) k
        = ledgerGet led k + creditTotal keccak led k ops - debitTotal keccak led k ops := by
  induction ops with
  | nil => intro led k; simp [runOps, creditTotal, debitTotal]
  | cons op ops ih =>
      intro led k
      simp only [runOps, creditTotal, debitTotal]
      rw [ih, applyOp_get]
      ring

lemma runOps_nonneg (keccak : PyStr → List Nat) (ops : List ApiOp) :
    ∀ led : Ledger, (∀ k, 0 ≤ ledgerGet led k) →
      ∀ k, 0 ≤ ledgerGet (runOps keccak led ops) k := by
  induction ops with
  | nil => intro led h k; simpa [runOps] using h k
  | cons op ops ih =>
      intro led h k
      exact ih _ (applyOp_nonneg keccak led op h) k

/-! Theorems settling the claims. -/

unseal Rat.add Rat.mul Rat.sub Rat.inv in
/-- C1, as stated, is falsified by one edge of the source: with a requested
amount of 0 (which claim_earnings never rejects) and no ledger entry for the
identity, every validation passes, the transaction is broadcast, and the
receipt reports success, yet the debit line raises KeyError (caught as a 500)
and the ledger is never debited — so a receipt success without a ledger
debit is reachable, contradicting the when-and-only-when. -/
theorem claim_C1_counterexample :
    isSuccessReceipt envOk.outcome = true
    ∧ (claimEarnings keccak0 true envOk [] { userWallet := wLow, amountETH := 0 }).1
        = .httpError 500 "KeyError"
    ∧ (claimEarnings keccak0 true envOk [] { userWallet := wLow, amountETH := 0 }).2 = [] := by
  refine ⟨by decide, ?_, ?_⟩ <;> decide

/-- C1 (amended): for every redemption attempt with positive requested
amount, the call succeeds and the ledger is debited exactly once (the
checksummed key decremented by the amount) if and only if the service is
ready, the address is valid, the advisory credit check and the liquidity
check pass, and the on-chain receipt reports success; any attempt that does
not succeed — Reverted, TimedOut, or any other failure — leaves the ledger
unchanged. -/
theorem claim_C1_amended (keccak : PyStr → List Nat) (ready : Bool)
    (env : ChainEnv) (led : Ledger) (req : ClaimReq)
    (hpos : 0 < req.amountETH) :
    (isOkB (claimEarnings keccak ready env led req).1 = true ↔
       (ready = true ∧ isAddress keccak req.userWallet = true
        ∧ req.amountETH ≤ ledgerGet led (toChecksumAddress keccak req.userWallet)
        ∧ req.amountETH + RESERVE ≤ env.treasuryBalance
        ∧ isSuccessReceipt env.outcome = true))
    ∧ (isOkB (claimEarnings keccak ready env led req).1 = true →
         (claimEarnings keccak ready env led req).2
           = ledgerSet led (toChecksumAddress keccak req.userWallet)
               (ledgerGet led (toChecksumAddress keccak req.userWallet) - req.amountETH))
    ∧ (isOkB (claimEarnings keccak ready env led req).1 = false →
         (claimEarnings keccak ready env led req).2 = led) := by
  have hiff := claim_ok_iff keccak ready env led req
  have hsnd := claim_snd_eq keccak ready env led req
  refine ⟨?_, ?_, ?_⟩
  · rw [hiff]
    unfold claimDebits
    simp only [Bool.and_eq_true, decide_eq_true_eq]
    constructor
    · rintro ⟨⟨⟨⟨⟨hr, hA⟩, hle⟩, htb⟩, hs⟩, hh⟩
      exact ⟨hr, hA, hle, htb, hs⟩
    · rintro ⟨hr, hA, hle, htb, hs⟩
      have hgt : (0:ℚ) < ledgerGet led (toChecksumAddress keccak req.userWallet) :=
        lt_of_lt_of_le hpos hle
      exact ⟨⟨⟨⟨⟨hr, hA⟩, hle⟩, htb⟩, hs⟩, ledgerHas_of_get_ne _ _ (ne_of_gt hgt)⟩
  · intro hok
    rw [hiff] at hok
    rw [hsnd, if_pos hok]
  · intro hnok
    have hnd : ¬ claimDebits keccak ready env led req = true := by
      rw [← hiff]
      simp [hnok]
    rw [hsnd, if_neg hnd]

/-- Witness for C1 (amended) at a concrete input: one credited identity, a
claim of 1 against a balance of 2, success receipt. -/
theorem claim_C1_witness :
    (0:ℚ) < ({ userWallet := wLow, amountETH := 1 } : ClaimReq).amountETH
    ∧ ((isOkB (claimEarnings keccak0 true envOk [(wLow, 2)]
            { userWallet := wLow, amountETH := 1 }).1 = true ↔
         (true = true ∧ isAddress keccak0 wLow = true
          ∧ ({ userWallet := wLow, amountETH := 1 } : ClaimReq).amountETH
              ≤ ledgerGet [(wLow, 2)] (toChecksumAddress keccak0 wLow)
          ∧ ({ userWallet := wLow, amountETH := 1 } : ClaimReq).amountETH + RESERVE
              ≤ envOk.treasuryBalance
          ∧ isSuccessReceipt envOk.outcome = true))
       ∧ (isOkB (claimEarnings keccak0 true envOk [(wLow, 2)]
              { userWallet := wLow, amountETH := 1 }).1 = true →
            (claimEarnings keccak0 true envOk [(wLow, 2)]
                { userWallet := wLow, amountETH := 1 }).2
              = ledgerSet [(wLow, 2)] (toChecksumAddress keccak0 wLow)
                  (ledgerGet [(wLow, 2)] (toChecksumAddress keccak0 wLow)
                    - ({ userWallet := wLow, amountETH := 1 } : ClaimReq).amountETH))
       ∧ (isOkB (claimEarnings keccak0 true envOk [(wLow, 2)]
              { userWallet := wLow, amountETH := 1 }).1 = false →
            (claimEarnings keccak0 true envOk [(wLow, 2)]
                { userWallet := wLow, amountETH := 1 }).2 = [(wLow, 2)])) :=
  ⟨by norm_num,
   claim_C1_amended keccak0 true envOk [(wLow, 2)]
     { userWallet := wLow, amountETH := 1 } (by norm_num)⟩

/-- C2: for every sequence of API credit and claim operations starting from
a nonnegative ledger, the balance of every identity key equals its starting
balance plus the amounts actually credited minus the amounts actually
debited along the trace, and is never negative (every prefix of a trace is
itself a trace, so this covers the balance after each operation). -/
theorem claim_C2_ledger_accounting (keccak : PyStr → List Nat)
    (ops : List ApiOp) (led : Ledger) (h0 : ∀ k, 0 ≤ ledgerGet led k) :
    ∀ k, ledgerGet (runOps keccak led ops) k
          = ledgerGet led k + creditTotal keccak led k ops - debitTotal keccak led k ops
       ∧ 0 ≤ ledgerGet (runOps keccak led ops) k := by
  intro k
  exact ⟨runOps_get keccak ops led k, runOps_nonneg keccak ops led h0 k⟩

/-- Witness for C2: a credit of 2 followed by a confirmed claim of 1 on the
same identity, starting from the empty ledger. -/
theorem claim_C2_witness :
    (∀ k, 0 ≤ ledgerGet ([] : Ledger) k)
    ∧ (ledgerGet (runOps keccak0 []
          [ApiOp.receive { amountETH := 2, userWallet := wLow },
           ApiOp.claim true envOk { userWallet := wLow, amountETH := 1 }]) wLow
        = ledgerGet ([] : Ledger) wLow
          + creditTotal keccak0 [] wLow
              [ApiOp.receive { amountETH := 2, userWallet := wLow },
               ApiOp.claim true envOk { userWallet := wLow, amountETH := 1 }]
          - debitTotal keccak0 [] wLow
              [ApiOp.receive { amountETH := 2, userWallet := wLow },
               ApiOp.claim true envOk { userWallet := wLow, amountETH := 1 }]
        ∧ 0 ≤ ledgerGet (runOps keccak0 []
            [ApiOp.receive { amountETH := 2, userWallet := wLow },
             ApiOp.claim true envOk { userWallet := wLow, amountETH := 1 }]) wLow) :=
  ⟨fun k => by simp [ledgerGet],
   claim_C2_ledger_accounting keccak0
     [ApiOp.receive { amountETH := 2, userWallet := wLow },
      ApiOp.claim true envOk { userWallet := wLow, amountETH := 1 }]
     [] (fun k => by simp [ledgerGet]) wLow⟩

/-- C3: whenever the requested amount strictly exceeds the identity's
current balance (under the checksummed key), claim_earnings fails with the
insufficient-credits client error (HTTP 400), leaves the ledger unchanged,
and the whole call is independent of the chain environment — i.e. the check
happens before any chain interaction. -/
theorem claim_C3_insufficient (keccak : PyStr → List Nat) (env env' : ChainEnv)
    (led : Ledger) (req : ClaimReq)
    (haddr : isAddress keccak req.userWallet = true)
    (hover : ledgerGet led (toChecksumAddress keccak req.userWallet) < req.amountETH) :
    (claimEarnings keccak true env led req).1
      = .httpError 400 "Insufficient: need amount, have credits"
    ∧ (claimEarnings keccak true env led req).2 = led
    ∧ claimEarnings keccak true env led req = claimEarnings keccak true env' led req := by
  unfold claimEarnings
  simp [haddr, hover]

/-- Witness for C3: claiming 2 against a balance of 1 under two different
chain environments. -/
theorem claim_C3_witness :
    isAddress keccak0 wLow = true
    ∧ ledgerGet [(wLow, 1)] (toChecksumAddress keccak0 wLow)
        < ({ userWallet := wLow, amountETH := 2 } : ClaimReq).amountETH
    ∧ ((claimEarnings keccak0 true envOk [(wLow, 1)]
          { userWallet := wLow, amountETH := 2 }).1
        = .httpError 400 "Insufficient: need amount, have credits"
       ∧ (claimEarnings keccak0 true envOk [(wLow, 1)]
            { userWallet := wLow, amountETH := 2 }).2 = [(wLow, 1)]
       ∧ claimEarnings keccak0 true envOk [(wLow, 1)]
            { userWallet := wLow, amountETH := 2 }
          = claimEarnings keccak0 true envTimeout [(wLow, 1)]
              { userWallet := wLow, amountETH := 2 }) :=
  ⟨by decide, by decide,
   claim_C3_insufficient keccak0 envOk envTimeout [(wLow, 1)]
     { userWallet := wLow, amountETH := 2 } (by decide) (by decide)⟩

unseal Rat.add Rat.mul Rat.sub Rat.inv in
/-- C4 is violated by the source: receive_earnings keys the ledger by the
raw request string with no normalization, so crediting the same real-world
address under two casings creates two distinct ledger entries — the claimed
single canonical entry per address does not hold, and neither the credit
path nor the lookup path keys the ledger by the checksummed form. -/
theorem claim_C4_raw_key_bug :
    (receiveEarnings [] { amountETH := 1, userWallet := wLow }).2 = [(wLow, 1)]
    ∧ (receiveEarnings [(wLow, 1)] { amountETH := 2, userWallet := wUp }).2
        = [(wLow, 1), (wUp, 2)]
    ∧ wLow ≠ wUp
    ∧ wLow.map pyLower = wUp.map pyLower := by
  refine ⟨?_, ?_, ?_, ?_⟩ <;> decide

unseal Rat.add Rat.mul Rat.sub Rat.inv in
/-- C5 is violated by the source: claim_earnings contains no non-positive
amount check; a request for 0 passes every validation (0 credits needed),
the transfer transaction is built, signed and broadcast, and on a success
receipt the call returns success with a zero debit — there is no
InvalidAmount rejection, and no client-fault (400) response at all. -/
theorem claim_C5_no_amount_check :
    isOkB (claimEarnings keccak0 true envOk [(wLow, 1)]
        { userWallet := wLow, amountETH := 0 }).1 = true
    ∧ (claimEarnings keccak0 true envOk [(wLow, 1)]
        { userWallet := wLow, amountETH := 0 }).2 = [(wLow, 1)]
    ∧ respCode (claimEarnings keccak0 true envOk [(wLow, 1)]
        { userWallet := wLow, amountETH := 0 }).1 ≠ 400 := by
  refine ⟨?_, ?_, ?_⟩ <;> decide

/-- C6: with a valid address and sufficient credits, claim_earnings fails
with the treasury-low client error exactly when the live treasury balance is
strictly below the requested amount plus the 0.002 reserve; in particular a
balance equal to amount plus reserve passes the check. -/
theorem claim_C6_liquidity_boundary (keccak : PyStr → List Nat)
    (env : ChainEnv) (led : Ledger) (req : ClaimReq)
    (haddr : isAddress keccak req.userWallet = true)
    (hcred : req.amountETH ≤ ledgerGet led (toChecksumAddress keccak req.userWallet)) :
    ((claimEarnings keccak true env led req).1 = .httpError 400 "Treasury low"
      ↔ env.treasuryBalance < req.amountETH + RESERVE) := by
  unfold claimEarnings
  have hns : ¬ ledgerGet led (toChecksumAddress keccak req.userWallet) < req.amountETH :=
    not_lt.mpr hcred
  by_cases h4 : env.treasuryBalance < req.amountETH + RESERVE
  · simp [haddr, hns, h4]
  · cases hoc : env.outcome with
    | sendError m => simp [haddr, hns, h4, hoc]
    | timeout => simp [haddr, hns, h4, hoc]
    | receipt status gasUsed egp blockNumber =>
        by_cases h5 : status = 1
        · by_cases h6 : ledgerHas led (toChecksumAddress keccak req.userWallet) = true
          · simp [haddr, hns, h4, hoc, h5, h6]
          · simp [haddr, hns, h4, hoc, h5, h6]
        · simp [haddr, hns, h4, hoc, h5]

/-- Witness for C6: claiming 2 against credits 5 with treasury balance 1. -/
theorem claim_C6_witness :
    isAddress keccak0 wLow = true
    ∧ ({ userWallet := wLow, amountETH := 2 } : ClaimReq).amountETH
        ≤ ledgerGet [(wLow, 5)] (toChecksumAddress keccak0 wLow)
    ∧ ((claimEarnings keccak0 true envOk [(wLow, 5)]
          { userWallet := wLow, amountETH := 2 }).1 = .httpError 400 "Treasury low"
        ↔ envOk.treasuryBalance
            < ({ userWallet := wLow, amountETH := 2 } : ClaimReq).amountETH + RESERVE) :=
  ⟨by decide, by decide,
   claim_C6_liquidity_boundary keccak0 envOk [(wLow, 5)]
     { userWallet := wLow, amountETH := 2 } (by decide) (by decide)⟩

unseal Rat.add Rat.mul Rat.sub Rat.inv in
/-- C7 is violated by the source in its surfacing half: on a receipt-polling
timeout the catch-all except handler raises HTTP 500 — the same server-fault
status code as the hard Reverted failure — so the caller gets no distinct
TimedOut indication at the protocol level, only a different exception text;
the no-debit half of the claim does hold: the ledger is left unchanged. -/
theorem claim_C7_timeout_conflated :
    (claimEarnings keccak0 true envTimeout [(wLow, 1)]
        { userWallet := wLow, amountETH := 1/2 }).1
      = .httpError 500 "Transaction receipt wait timed out"
    ∧ (claimEarnings keccak0 true envTimeout [(wLow, 1)]
        { userWallet := wLow, amountETH := 1/2 }).2 = [(wLow, 1)]
    ∧ (claimEarnings keccak0 true envReverted [(wLow, 1)]
        { userWallet := wLow, amountETH := 1/2 }).1 = .httpError 500 "TX reverted"
    ∧ respCode (claimEarnings keccak0 true envTimeout [(wLow, 1)]
        { userWallet := wLow, amountETH := 1/2 }).1
      = respCode (claimEarnings keccak0 true envReverted [(wLow, 1)]
        { userWallet := wLow, amountETH := 1/2 }).1 := by
  refine ⟨?_, ?_, ?_, ?_⟩ <;> decide

/-- C8: for every keccak digest function (of the correct 64-nibble output
length on 40-character inputs), the EIP-55 normalizer is idempotent on valid
hex addresses — so normalizing an already-canonical address returns it
unchanged — and depends only on the lowercased input, so any two input
strings differing only in letter casing normalize to identical output. -/
theorem claim_C8_normalizer (keccak : PyStr → List Nat)
    (hk : ∀ t : PyStr, t.length = 40 → 40 ≤ (keccak t).length) :
    (∀ s : PyStr, isHexAddress s = true →
        toChecksumAddress keccak (toChecksumAddress keccak s)
          = toChecksumAddress keccak s)
    ∧ (∀ s t : PyStr, s.map pyLower = t.map pyLower →
        toChecksumAddress keccak s = toChecksumAddress keccak t) := by
  constructor
  · intro s hs
    obtain ⟨t, rfl, hlen⟩ := isHexAddress_shape s hs
    have hlow : (t.map pyLower).length = 40 := by simp [hlen]
    have hcore : (applyCase (t.map pyLower) (keccak (t.map pyLower))).map pyLower
        = t.map pyLower := by
      rw [applyCase_map_pyLower _ _ (by rw [hlow]; exact hk _ hlow), map_pyLower_idem]
    unfold toChecksumAddress checksumCore
    simp only [List.drop_succ_cons, List.drop_zero]
    rw [hcore]
  · intro s t hst
    unfold toChecksumAddress checksumCore
    have hdrop : (s.drop 2).map pyLower = (t.drop 2).map pyLower := by
      rw [List.map_drop, List.map_drop, hst]
    rw [hdrop]

/-- Witness for C8: the degenerate digest satisfies the length bound, the
all-lowercase address is a valid hex address, and normalization is
idempotent on it and identifies it with its uppercase casing. -/
theorem claim_C8_witness :
    (∀ t : PyStr, t.length = 40 → 40 ≤ (keccak0 t).length)
    ∧ toChecksumAddress keccak0 (toChecksumAddress keccak0 wLow)
        = toChecksumAddress keccak0 wLow
    ∧ toChecksumAddress keccak0 wUp = toChecksumAddress keccak0 wLow :=
  ⟨fun t _ => by simp [keccak0],
   (claim_C8_normalizer keccak0 (fun t _ => by simp [keccak0])).1 wLow (by decide),
   (claim_C8_normalizer keccak0 (fun t _ => by simp [keccak0])).2 wUp wLow (by decide)⟩

/-- C9: the source's handlers are async functions with no await point, so
the event loop serializes whole requests and the two attempts execute one
after the other in some order; over that semantics, for any two claim
requests on the same identity whose amounts jointly exceed its starting
balance, at most one can return success: if the first succeeds it debits the
ledger, and the second then fails its credit check against the debited
balance. -/
theorem claim_C9_no_double_redeem (keccak : PyStr → List Nat)
    (ready₁ ready₂ : Bool) (env₁ env₂ : ChainEnv) (led : Ledger)
    (req₁ req₂ : ClaimReq)
    (hsame : toChecksumAddress keccak req₂.userWallet
               = toChecksumAddress keccak req₁.userWallet)
    (hjoint : ledgerGet led (toChecksumAddress keccak req₁.userWallet)
                < req₁.amountETH + req₂.amountETH) :
    ¬ (isOkB (claimEarnings keccak ready₁ env₁ led req₁).1 = true
       ∧ isOkB (claimEarnings keccak ready₂ env₂
            (claimEarnings keccak ready₁ env₁ led req₁).2 req₂).1 = true) := by
  rintro ⟨h1, h2⟩
  have hd1 : claimDebits keccak ready₁ env₁ led req₁ = true :=
    (claim_ok_iff keccak ready₁ env₁ led req₁).mp h1
  have hsnd1 : (claimEarnings keccak ready₁ env₁ led req₁).2
      = ledgerSet led (toChecksumAddress keccak req₁.userWallet)
          (ledgerGet led (toChecksumAddress keccak req₁.userWallet) - req₁.amountETH) := by
    rw [claim_snd_eq, if_pos hd1]
  have hd2 : claimDebits keccak ready₂ env₂
      (claimEarnings keccak ready₁ env₁ led req₁).2 req₂ = true :=
    (claim_ok_iff keccak ready₂ env₂ _ req₂).mp h2
  have hle2 := claimDebits_amount_le keccak ready₂ env₂ _ req₂ hd2
  rw [hsnd1, hsame, ledgerGet_ledgerSet, if_pos rfl] at hle2
  linarith

unseal Rat.add Rat.mul Rat.sub Rat.inv in
/-- Witness for C9: two claims of 1 each against a starting balance of 1. -/
theorem claim_C9_witness :
    toChecksumAddress keccak0 wLow = toChecksumAddress keccak0 wLow
    ∧ ledgerGet [(wLow, 1)] (toChecksumAddress keccak0 wLow)
        < ({ userWallet := wLow, amountETH := 1 } : ClaimReq).amountETH
          + ({ userWallet := wLow, amountETH := 1 } : ClaimReq).amountETH
    ∧ ¬ (isOkB (claimEarnings keccak0 true envOk [(wLow, 1)]
            { userWallet := wLow, amountETH := 1 }).1 = true
         ∧ isOkB (claimEarnings keccak0 true envOk
              (claimEarnings keccak0 true envOk [(wLow, 1)]
                { userWallet := wLow, amountETH := 1 }).2
              { userWallet := wLow, amountETH := 1 }).1 = true) :=
  ⟨rfl, by decide,
   claim_C9_no_double_redeem keccak0 true true envOk envOk [(wLow, 1)]
     { userWallet := wLow, amountETH := 1 } { userWallet := wLow, amountETH := 1 }
     rfl (by decide)⟩

lemma scanCredits_no_match_append (led₁ rest : Ledger) (al : PyStr)
    (h : ∀ p ∈ led₁, p.1.map pyLower ≠ al) :
    scanCredits (led₁ ++ rest) al = scanCredits rest al := by
  induction led₁ with
  | nil => simp
  | cons p l ih =>
      obtain ⟨k', v'⟩ := p
      have hk' : k'.map pyLower ≠ al := h ⟨k', v'⟩ (List.mem_cons_self _ _)
      simp [scanCredits, hk', ih (fun q hq => h q (List.mem_cons_of_mem _ hq))]

/-- C10: when the ledger holds several keys matching the queried address
case-insensitively, get_user_credits returns the balance of the first match
in dict iteration order, and the entries after that first match never
influence the response — the result is that single balance, not the sum of
all matching balances. -/
theorem claim_C10_first_match (led₁ led₂ : Ledger) (k : PyStr) (v : ℚ)
    (addr : PyStr)
    (hfmt : (startsWith0x (pyStrip addr) && (pyStrip addr).length == 42) = true)
    (hnomatch : ∀ p ∈ led₁, p.1.map pyLower ≠ (pyStrip addr).map pyLower)
    (hmatch : k.map pyLower = (pyStrip addr).map pyLower) :
    getUserCredits (led₁ ++ (k, v) :: led₂) addr
      = .ok { wallet := pyStrip addr
              creditsEth := v
              creditsUsd := v * ETH_PRICE
              canClaim := decide (0 < v) }
    ∧ getUserCredits (led₁ ++ (k, v) :: led₂) addr
        = getUserCredits (led₁ ++ [(k, v)]) addr := by
  have hgo : ∀ led₂' : Ledger,
      getUserCredits (led₁ ++ (k, v) :: led₂') addr
        = .ok { wallet := pyStrip addr
                creditsEth := v
                creditsUsd := v * ETH_PRICE
                canClaim := decide (0 < v) } := by
    intro led₂'
    have hscan : scanCredits (led₁ ++ (k, v) :: led₂') ((pyStrip addr).map pyLower) = v := by
      rw [scanCredits_no_match_append _ _ _ hnomatch]
      simp [scanCredits, hmatch]
    unfold getUserCredits
    simp [hfmt, hscan]
  exact ⟨hgo led₂, by rw [hgo led₂, hgo []]⟩

/-- Witness for C10: the ledger holds the uppercase casing with balance 3
before the lowercase casing with balance 5; the query returns 3, and the
entry after the first match is irrelevant. -/
theorem claim_C10_witness :
    (startsWith0x (pyStrip wLow) && (pyStrip wLow).length == 42) = true
    ∧ wUp.map pyLower = (pyStrip wLow).map pyLower
    ∧ (getUserCredits ([] ++ (wUp, 3) :: [(wLow, 5)]) wLow
        = .ok { wallet := pyStrip wLow
                creditsEth := 3
                creditsUsd := 3 * ETH_PRICE
                canClaim := decide ((0:ℚ) < 3) }
       ∧ getUserCredits ([] ++ (wUp, 3) :: [(wLow, 5)]) wLow
          = getUserCredits ([] ++ [(wUp, 3)]) wLow) :=
  ⟨by decide, by decide,
   claim_C10_first_match [] [(wLow, 5)] wUp 3 wLow (by decide)
     (fun p hp => absurd hp (List.not_mem_nil p)) (by decide)⟩

end Treasury
